import Mathlib

/-!
Verification development for the VSIX repackaging subsystem of the
DevSecOps repository.  The pipeline is implemented twice, with minor
variations, in

  * `scripts/scripts/update_vsix_engine.py` (the "engine" pipeline,
    `process_vsix_file`), and
  * `users/jose.guzman/scripts/fix_github_extensions.py` (the fallback
    orchestrator, `process_extension`, with four strategies).

Every definition below is a shallow embedding of a concrete piece of that
Python source; the source file and line numbers are given in each doc
comment.
-/

namespace DevSecOps

/-! ## JSON documents

`json.load` produces Python values; Python dicts preserve insertion order,
so an object is modelled as an ordered association list.  Assigning to an
existing key keeps its position, assigning a fresh key appends it at the
end - exactly `setKey` below. -/

/-- A JSON value as produced by Python's `json.load`:  objects are
insertion-ordered association lists (Python 3.7+ dict semantics). -/
inductive Json where
  | str : String → Json
  | num : Int → Json
  | bool : Bool → Json
  | null : Json
  | arr : List Json → Json
  | obj : List (String × Json) → Json

/-- Lookup of `d[k]` / `k in d` on a Python dict, first binding wins
(association lists built here never hold duplicate keys, as Python dicts
cannot). -/
def lookupKey : List (String × Json) → String → Option Json
  | [], _ => none
  | (k', v') :: rest, k => if k' = k then some v' else lookupKey rest k

/-- Assignment `d[k] = v` on a Python dict: overwrite in place if the key
exists (keeping its position), otherwise append the new binding at the
end. -/
def setKey : List (String × Json) → String → Json → List (String × Json)
  | [], k, v => [(k, v)]
  | (k', v') :: rest, k, v =>
    if k' = k then (k, v) :: rest else (k', v') :: setKey rest k v

@[simp] theorem lookupKey_nil (k : String) : lookupKey [] k = none := rfl

@[simp] theorem setKey_nil (k : String) (v : Json) : setKey [] k v = [(k, v)] := rfl

theorem lookupKey_setKey_self (l : List (String × Json)) (k : String) (v : Json) :
    lookupKey (setKey l k v) k = some v := by
  induction l with
  | nil => simp [setKey, lookupKey]
  | cons hd tl ih =>
    by_cases h : hd.1 = k
    · simp [setKey, lookupKey, h]
    · simp [setKey, lookupKey, h, ih]

theorem lookupKey_setKey_ne (l : List (String × Json)) (k k' : String) (v : Json)
    (h : k' ≠ k) : lookupKey (setKey l k v) k' = lookupKey l k' := by
  induction l with
  | nil =>
    simp only [setKey_nil, lookupKey]
    rw [if_neg (fun hh => h hh.symm)]
  | cons hd tl ih =>
    by_cases hk : hd.1 = k
    · subst hk
      simp only [setKey, if_pos rfl, lookupKey]
      rw [if_neg (fun hh => h hh.symm), if_neg (fun hh => h hh.symm)]
    · simp only [setKey, if_neg hk, lookupKey]
      by_cases hk' : hd.1 = k'
      · simp [hk']
      · simp [hk', ih]

theorem setKey_setKey_same (l : List (String × Json)) (k : String) (v : Json) :
    setKey (setKey l k v) k v = setKey l k v := by
  induction l with
  | nil => simp [setKey]
  | cons hd tl ih =>
    by_cases h : hd.1 = k
    · simp [setKey, h]
    · simp [setKey, h, ih]

/-- The key sequence of a document (field ordering). -/
def keysOf (l : List (String × Json)) : List String := l.map Prod.fst

theorem keysOf_setKey (l : List (String × Json)) (k : String) (v : Json) :
    keysOf (setKey l k v) =
      (if (lookupKey l k).isSome then keysOf l else keysOf l ++ [k]) := by
  induction l with
  | nil => simp [keysOf, setKey, lookupKey]
  | cons hd tl ih =>
    by_cases h : hd.1 = k
    · simp [keysOf, setKey, lookupKey, h]
    · simp only [setKey, if_neg h, keysOf, List.map_cons, lookupKey]
      rw [show List.map Prod.fst (setKey tl k v) = keysOf (setKey tl k v) from rfl, ih]
      split <;> simp [keysOf]

/-! ## Manifest files and the manifest patcher

`update_package_json` (update_vsix_engine.py lines 66-89, duplicated at
fix_github_extensions.py lines 58-81) reads a `package.json`, updates
`engines.vscode`, and writes the file back.  A file on disk is modelled by
its parse outcome: `ok j` is content whose `json.load` yields `j`,
`bad s` is raw content `s` that fails to parse (raising inside the
`try`, so the function returns `(False, None, None)` without writing). -/

/-- Content of a manifest file on disk, as observable by `json.load`. -/
inductive ManifestFile where
  | ok : Json → ManifestFile
  | bad : String → ManifestFile

/-- Result of one `update_package_json` call: the file content after the
call, the returned success flag, and the returned
`(original_version, target_version)` pair. -/
structure PatchOutcome where
  file : ManifestFile
  ok : Bool
  original : Option Json
  newVal : Option String

/-- Document-level patch, update_vsix_engine.py lines 73-80:

* `original_version = data["engines"]["vscode"]` when both keys exist;
* `if "engines" not in data: data["engines"] = \x7b\x7d`;
* `data["engines"]["vscode"] = target_version`.

When `data["engines"]` exists but is not a dict, the Python code raises
`TypeError` (membership test on a number, or item assignment on a
string/list/number), which the surrounding `except` turns into a failed
patch with no file write; that is the `none` result here. -/
def patchDoc (d : List (String × Json)) (v : String) :
    Option (List (String × Json)) :=
  match lookupKey d "engines" with
  | none => some (setKey d "engines" (Json.obj (setKey [] "vscode" (Json.str v))))
  | some (Json.obj o) => some (setKey d "engines" (Json.obj (setKey o "vscode" (Json.str v))))
  | some _ => none

/-- The original `engines.vscode` value recorded for the ledger
(update_vsix_engine.py lines 73-75): set only when `engines` exists and
contains `vscode`. -/
def originalEngines (d : List (String × Json)) : Option Json :=
  match lookupKey d "engines" with
  | some (Json.obj o) => lookupKey o "vscode"
  | _ => none

/-- `update_package_json(package_json_path, target_version)`
(update_vsix_engine.py lines 66-89).  On any exception - unparseable
content, a non-object top level (item assignment on it raises
`TypeError`), or a non-object `engines` value - the function returns
`(False, None, None)` and the write at line 83 is never reached, so the
file content is unchanged. -/
def update_package_json (m : ManifestFile) (target : String) : PatchOutcome :=
  match m with
  | ManifestFile.bad s => ⟨ManifestFile.bad s, false, none, none⟩
  | ManifestFile.ok (Json.obj d) =>
    match patchDoc d target with
    | some d2 => ⟨ManifestFile.ok (Json.obj d2), true, originalEngines d, some target⟩
    | none => ⟨ManifestFile.ok (Json.obj d), false, none, none⟩
  | ManifestFile.ok j => ⟨ManifestFile.ok j, false, none, none⟩

/-! ## Python string formatting

The ledgers format values with f-strings: `str(None)` is `"None"`,
`str` of a string is the string itself, and containers print in repr
form.  Only the string and `None` cases are exercised by the pipeline's
ledger lines, but the whole formatter is embedded. -/

mutual
/-- Python `repr` of a JSON value (the form used inside containers). -/
def pyRepr : Json → String
  | Json.str s => "\x27" ++ s ++ "\x27"
  | Json.num n => toString n
  | Json.bool b => cond b "True" "False"
  | Json.null => "None"
  | Json.arr xs => "[" ++ String.intercalate ", " (pyReprList xs) ++ "]"
  | Json.obj kvs => "\x7b" ++ String.intercalate ", " (pyReprObj kvs) ++ "\x7d"

/-- `repr` of each element of a Python list. -/
def pyReprList : List Json → List String
  | [] => []
  | x :: xs => pyRepr x :: pyReprList xs

/-- `repr` of each `key: value` pair of a Python dict. -/
def pyReprObj : List (String × Json) → List String
  | [] => []
  | (k, v) :: kvs => ("\x27" ++ k ++ "\x27: " ++ pyRepr v) :: pyReprObj kvs
end

/-- Python `str()` as applied by an f-string to a JSON value. -/
def pyStr : Json → String
  | Json.str s => s
  | j => pyRepr j

/-- Python `str()` of an optional JSON value (`None` prints as `"None"`). -/
def pyOptJson : Option Json → String
  | none => "None"
  | some j => pyStr j

/-- Python `str()` of an optional string. -/
def pyOptStr : Option String → String
  | none => "None"
  | some s => s

/-! ## Directory trees and the repackaging walk

`os.walk` over an extraction directory, as used by `find_package_json`
(update_vsix_engine.py lines 58-63) and by the repackaging loop
(update_vsix_engine.py lines 170-175, fix_github_extensions.py lines
115-120). -/

/-- One entry of an on-disk directory: a regular file (with its content)
or a subdirectory. -/
inductive Entry where
  | file : String → ManifestFile → Entry
  | dir : String → List Entry → Entry

/-- The files of one directory level, as the `files` component of an
`os.walk` tuple, paired with `os.path.relpath`-style paths (component
lists relative to the walk root). -/
def levelFiles (pre : List String) : List Entry → List (List String × ManifestFile)
  | [] => []
  | Entry.file n c :: es => (pre ++ [n], c) :: levelFiles pre es
  | Entry.dir _ _ :: es => levelFiles pre es

mutual
/-- The `os.walk` contribution of one entry below the current level: a
file contributes nothing further, a subdirectory contributes its own
level's files followed by its subdirectories' walks. -/
def walkDir (pre : List String) (e : Entry) : List (List String × ManifestFile) :=
  match e with
  | Entry.file _ _ => []
  | Entry.dir n cs => levelFiles (pre ++ [n]) cs ++ walkDirs (pre ++ [n]) cs

/-- The recursive part of `os.walk` (top-down): after the current level's
files, each subdirectory's entire subtree is walked in order. -/
def walkDirs (pre : List String) (es : List Entry) : List (List String × ManifestFile) :=
  match es with
  | [] => []
  | e :: es => walkDir pre e ++ walkDirs pre es
end

/-- All regular files yielded by `os.walk(root)` in walk order, each with
its path relative to the root (`os.path.relpath(file_path, root)`). -/
def walkFiles (pre : List String) (es : List Entry) : List (List String × ManifestFile) :=
  levelFiles pre es ++ walkDirs pre es

/-- The repackaging loop (update_vsix_engine.py lines 170-175,
fix_github_extensions.py lines 115-120): walk the extraction root and
write one archive entry per regular file, named by its relative path.
Nothing else - in particular no directory entry - is ever written. -/
def repackage (es : List Entry) : List (List String × ManifestFile) :=
  walkFiles [] es

/-- `find_package_json` (update_vsix_engine.py lines 58-63): the first
file named `package.json` in `os.walk` order, returned with its path and
content, or `none`. -/
def find_package_json (es : List Entry) : Option (List String × ManifestFile) :=
  (walkFiles [] es).find? (fun pc => pc.1.getLast? = some "package.json")

mutual
/-- Writing new content to the file at a relative path, single-entry
part: an on-disk write replaces the content of the file at that path
(sibling names on a real filesystem are unique, so at most one entry of
a level matches a path component). -/
def writeFileEntry (e : Entry) (p : List String) (c : ManifestFile) : Entry :=
  match e, p with
  | Entry.file n c0, [m] => if n == m then Entry.file n c else Entry.file n c0
  | Entry.dir n cs, m :: rest =>
      if !rest.isEmpty && n == m then Entry.dir n (setFileContent cs rest c)
      else Entry.dir n cs
  | e, _ => e

/-- Writing new content to the file at a given path inside the extracted
tree (the `package.json` write-back at update_vsix_engine.py line 83). -/
def setFileContent (es : List Entry) (p : List String) (c : ManifestFile) : List Entry :=
  match es with
  | [] => []
  | e :: es => writeFileEntry e p c :: setFileContent es p c
end

/-! ## Archive bytes and classification

The container-format probing of `process_vsix_file`
(update_vsix_engine.py lines 112-141): method 1 fully gunzips the file
and opens the result as a ZIP; method 2 opens the original file directly
as a ZIP.  A byte string is modelled by what those two operations can
observe of it. -/

/-- The bytes of an archive file, as observable by `gzip` decompression
and `zipfile` parsing:

* `zipData t` - a valid plain ZIP holding the tree `t` (no gzip magic);
* `gzipData inner` - a complete valid gzip stream (first two bytes
  `0x1F 0x8B`) whose decompressed payload is `inner`;
* `gzipMagicCorrupt` - bytes starting with the gzip magic `0x1F 0x8B`
  that are not a complete valid gzip stream;
* `junk` - anything else (no gzip magic, not a valid ZIP). -/
inductive Bytes where
  | zipData : List Entry → Bytes
  | gzipData : Bytes → Bytes
  | gzipMagicCorrupt : Bytes
  | junk : Bytes

/-- Whether the first two bytes equal the gzip magic number `0x1F 0x8B`. -/
def hasGzipMagic : Bytes → Bool
  | Bytes.gzipData _ => true
  | Bytes.gzipMagicCorrupt => true
  | Bytes.zipData _ => false
  | Bytes.junk => false

/-- `gzip.open` + `shutil.copyfileobj` (update_vsix_engine.py lines
116-118): succeeds exactly on a complete valid gzip stream, yielding the
decompressed payload. -/
def gunzip : Bytes → Option Bytes
  | Bytes.gzipData inner => some inner
  | _ => none

/-- `zipfile.ZipFile(path) + extractall`: succeeds exactly on a valid
ZIP, yielding the extracted tree. -/
def asZip : Bytes → Option (List Entry)
  | Bytes.zipData t => some t
  | _ => none

/-- The extraction phase of `process_vsix_file` (update_vsix_engine.py
lines 112-141): method 1 gunzips and opens the payload as a ZIP (setting
`is_gzipped`); if either step fails, method 2 opens the original bytes
directly as a ZIP.  Returns the extracted tree and the `is_gzipped`
flag, or `none` when both methods fail. -/
def extractArchive (b : Bytes) : Option (List Entry × Bool) :=
  match gunzip b with
  | some payload =>
    match asZip payload with
    | some t => some (t, true)
    | none => (asZip b).map (fun t => (t, false))
  | none => (asZip b).map (fun t => (t, false))

/-- Container kinds as named by the specification. -/
inductive ContainerKind where
  | PlainZip
  | GzipWrappedZip
  | Unknown
deriving DecidableEq

/-- Archive classification, as performed by the two extraction methods of
`process_vsix_file`: the gzip attempt runs first, the direct ZIP attempt
only if it fails. -/
def classify (b : Bytes) : ContainerKind :=
  match extractArchive b with
  | some (_, true) => ContainerKind.GzipWrappedZip
  | some (_, false) => ContainerKind.PlainZip
  | none => ContainerKind.Unknown

/-! ## The engine pipeline (`process_vsix_file`) -/

/-- Observable outcome of one `process_vsix_file` call: the archive bytes
at the original path afterwards, the lines appended to the success and
failure ledgers, and the returned boolean. -/
structure EngineResult where
  archive : Bytes
  successLines : List String
  failedLines : List String
  ok : Bool

/-- `process_vsix_file(vsix_path)` (update_vsix_engine.py lines 92-216):
extract (two methods), locate `package.json`, patch it, rebuild a ZIP
from the extracted tree, re-gzip when the original was gzip-wrapped, and
copy the result over the original path.  Each failure exit appends its
ledger line and returns `False`; only the success path touches the
archive (via `shutil.copy2` at line 190).  The success ledger line
(line 196) is `f"\x7bextension_name\x7d: \x7boriginal_version\x7d -> \x7bnew_version\x7d"`. -/
def process_vsix_file (name : String) (b : Bytes) : EngineResult :=
  match extractArchive b with
  | none => ⟨b, [], [name ++ ": Could not extract file"], false⟩
  | some (t, gz) =>
    match find_package_json t with
    | none => ⟨b, [], [name ++ ": No package.json found"], false⟩
    | some (p, c) =>
      let r := update_package_json c "^1.99.0"
      if r.ok then
        let t2 := setFileContent t p r.file
        let out := if gz then Bytes.gzipData (Bytes.zipData t2) else Bytes.zipData t2
        ⟨out, [name ++ ": " ++ pyOptJson r.original ++ " -> " ++ pyOptStr r.newVal], [], true⟩
      else
        ⟨b, [], [name ++ ": Failed to update package.json"], false⟩

/-- The batch loop of `main` (update_vsix_engine.py lines 253-255): every
archive is processed in turn; `process_vsix_file` returns normally on
failure, so one bad archive never aborts the batch. -/
def mainLoop (files : List (String × Bytes)) : List EngineResult :=
  files.map (fun nb => process_vsix_file nb.1 nb.2)

/-! ## The fallback strategies (`fix_github_extensions.py`) -/

/-- What one fallback strategy call leaves behind: the archive bytes at
the original path and the `(success, original, new)` triple it returns. -/
structure StratOutcome where
  archive : Bytes
  ok : Bool
  original : Option Json
  newVal : Option String

/-- `try_direct_zip_method` (fix_github_extensions.py lines 101-125):
open the archive as a ZIP, extract, locate and patch `package.json`, and
on success rewrite the archive by opening the ORIGINAL path with
`zipfile.ZipFile(vsix_path, "w")` (line 115) and walking the extraction
directory.  On any failure the triple is `(False, None, None)`. -/
def try_direct_zip_method (b : Bytes) : StratOutcome :=
  match asZip b with
  | none => ⟨b, false, none, none⟩
  | some t =>
    match find_package_json t with
    | none => ⟨b, false, none, none⟩
    | some (p, c) =>
      let r := update_package_json c "^1.99.0"
      if r.ok then ⟨Bytes.zipData (setFileContent t p r.file), true, r.original, r.newVal⟩
      else ⟨b, false, none, none⟩

/-- `try_unzip_manually` (fix_github_extensions.py lines 127-165):
extract with the external `unzip` tool (which succeeds on valid ZIP
archives, modelled as `asZip`), patch, repack with the external `zip`
tool into `temp_dir/repacked.vsix`, then `shutil.copy2` the temp file
over the original path.  The external `zip -r` also stores directory
entries; only the regular-file entries are modelled here. -/
def try_unzip_manually (b : Bytes) : StratOutcome :=
  match asZip b with
  | none => ⟨b, false, none, none⟩
  | some t =>
    match find_package_json t with
    | none => ⟨b, false, none, none⟩
    | some (p, c) =>
      let r := update_package_json c "^1.99.0"
      if r.ok then ⟨Bytes.zipData (setFileContent t p r.file), true, r.original, r.newVal⟩
      else ⟨b, false, none, none⟩

/-- `try_vsce_method` (fix_github_extensions.py lines 167-228): probe for
the external `vsce` tool (`vsceOnPath` models `command -v vsce`); when
absent, skip immediately.  When present, `vsce ls` probes the archive in
a read-only capacity, then the unzip/patch/zip/copy2 path of
`try_unzip_manually` is used. -/
def try_vsce_method (vsceOnPath : Bool) (b : Bytes) : StratOutcome :=
  if vsceOnPath then try_unzip_manually b
  else ⟨b, false, none, none⟩

/-- Whether the ZIP name list contains a root-level
`extension.vsixmanifest` entry (`"extension.vsixmanifest" in
zip_contents`, fix_github_extensions.py line 243). -/
def hasRootVsixManifest (es : List Entry) : Bool :=
  es.any (fun e =>
    match e with
    | Entry.file n _ => n == "extension.vsixmanifest"
    | Entry.dir _ _ => false)

/-- `try_github_specific_format` (fix_github_extensions.py lines
230-263): open the archive as a ZIP, require a root
`extension.vsixmanifest` entry, extract, patch, and on success rewrite
the ORIGINAL path in place with `zipfile.ZipFile(vsix_path, "w")`
(line 252), as in `try_direct_zip_method`. -/
def try_github_specific_format (b : Bytes) : StratOutcome :=
  match asZip b with
  | none => ⟨b, false, none, none⟩
  | some t =>
    if hasRootVsixManifest t then
      match find_package_json t with
      | none => ⟨b, false, none, none⟩
      | some (p, c) =>
        let r := update_package_json c "^1.99.0"
        if r.ok then ⟨Bytes.zipData (setFileContent t p r.file), true, r.original, r.newVal⟩
        else ⟨b, false, none, none⟩
    else ⟨b, false, none, none⟩

/-! ## The fallback orchestrator (`process_extension`) -/

/-- Observable outcome of one `process_extension` call: final archive
bytes, ledger lines, the names of the strategies attempted (each is
logged before it runs, fix_github_extensions.py line 285), and the
returned boolean. -/
structure OrchResult where
  archive : Bytes
  successLines : List String
  failedLines : List String
  attempted : List String
  ok : Bool

/-- The success ledger line of the orchestrator
(fix_github_extensions.py line 293):
`f"\x7bextension_name\x7d: \x7boriginal\x7d -> \x7bnew\x7d (using \x7bmethod_name\x7d)"`. -/
def orchSuccessLine (name : String) (original : Option Json) (newVal : Option String)
    (methodName : String) : String :=
  name ++ ": " ++ pyOptJson original ++ " -> " ++ pyOptStr newVal ++
    " (using " ++ methodName ++ ")"

/-- The strategy loop of `process_extension` (fix_github_extensions.py
lines 277-308): run the ordered `(name, function)` list starting at the
front; on the first success append one success-ledger line naming that
strategy and stop; if the list is exhausted append the single
failure-ledger line `f"\x7bextension_name\x7d: All methods failed"`. -/
def runStrategies (name : String) :
    List (String × (Bytes → StratOutcome)) → Bytes → OrchResult
  | [], b => ⟨b, [], [name ++ ": All methods failed"], [], false⟩
  | (mn, f) :: rest, b =>
    let r := f b
    if r.ok then
      ⟨r.archive, [orchSuccessLine name r.original r.newVal mn], [], [mn], true⟩
    else
      let rr := runStrategies name rest r.archive
      ⟨rr.archive, rr.successLines, rr.failedLines, mn :: rr.attempted, rr.ok⟩

/-- The fixed strategy list of `process_extension`
(fix_github_extensions.py lines 277-282), in source order. -/
def orchMethods (vsceOnPath : Bool) : List (String × (Bytes → StratOutcome)) :=
  [("Standard ZIP", try_direct_zip_method),
   ("Manual unzip", try_unzip_manually),
   ("VSCE tool", try_vsce_method vsceOnPath),
   ("GitHub specific", try_github_specific_format)]

/-- `process_extension(vsix_path)` (fix_github_extensions.py lines
265-322). -/
def process_extension (vsceOnPath : Bool) (name : String) (b : Bytes) : OrchResult :=
  runStrategies name (orchMethods vsceOnPath) b

/-! ## Crash traces: which writes touch the archive path

For the read-then-replace discipline (spec section 5) the relevant facts
are WHICH path each write of a pipeline targets and in what order.  Each
pipeline's success path is abstracted to its sequence of file-system
operations; a crash after `n` operations leaves the archive file in the
state reached by the first `n`. -/

/-- The archive file at its original path: untouched original bytes, a
truncated/partially-written replacement, or the complete replacement. -/
inductive ArchivePathState where
  | original
  | truncated
  | replaced
deriving DecidableEq

/-- One file-system operation of a pipeline, classified by its target:
temp-directory writes never touch the archive path; opening the archive
path for writing truncates it; finishing that write completes the
replacement. -/
inductive FsOp where
  | readArchive
  | writeTemp
  | beginWriteArchive
  | endWriteArchive
deriving DecidableEq

/-- Effect of one operation on the archive file at its original path. -/
def archStep : ArchivePathState → FsOp → ArchivePathState
  | s, FsOp.readArchive => s
  | s, FsOp.writeTemp => s
  | _, FsOp.beginWriteArchive => ArchivePathState.truncated
  | _, FsOp.endWriteArchive => ArchivePathState.replaced

/-- Archive-path state after a whole operation sequence. -/
def archAfter (tr : List FsOp) : ArchivePathState :=
  tr.foldl archStep ArchivePathState.original

/-- Archive-path state when the pipeline crashes after the first `n`
operations of its trace. -/
def crashAt (tr : List FsOp) (n : Nat) : ArchivePathState :=
  archAfter (tr.take n)

/-- Success-path trace of `process_vsix_file` (update_vsix_engine.py):
read the archive (116/134), write `temp_extracted_file` (117), extract
into `contents` (122/135), write back `package.json` (83), write
`updated.zip` (170), optionally write `recompressed.vsix` (181) - all in
temp directories - then `shutil.copy2(output_file, vsix_path)` (190),
which opens the ARCHIVE path for writing and copies bytes into it: a
plain byte copy, not an atomic rename. -/
def process_vsix_trace : List FsOp :=
  [FsOp.readArchive, FsOp.writeTemp, FsOp.writeTemp, FsOp.writeTemp,
   FsOp.writeTemp, FsOp.beginWriteArchive, FsOp.endWriteArchive]

/-- Success-path trace of `try_direct_zip_method`
(fix_github_extensions.py): read + extract to temp (107-108), patch
`package.json` in temp (75), then `zipfile.ZipFile(vsix_path, "w")`
(115) - the replacement archive is written DIRECTLY AT the original
path, entry by entry. -/
def try_direct_zip_trace : List FsOp :=
  [FsOp.readArchive, FsOp.writeTemp, FsOp.writeTemp,
   FsOp.beginWriteArchive, FsOp.endWriteArchive]

/-- Success-path trace of `try_unzip_manually`
(fix_github_extensions.py): extract to temp (134), patch in temp (75),
`zip` to `temp_dir/repacked.vsix` (151), then
`shutil.copy2(..., vsix_path)` (160). -/
def try_unzip_trace : List FsOp :=
  [FsOp.readArchive, FsOp.writeTemp, FsOp.writeTemp, FsOp.writeTemp,
   FsOp.beginWriteArchive, FsOp.endWriteArchive]

/-- Success-path trace of `try_vsce_method` (fix_github_extensions.py):
probe, extract to temp (196), patch in temp (75), `zip` to temp (214),
then `shutil.copy2(..., vsix_path)` (223). -/
def try_vsce_trace : List FsOp :=
  [FsOp.readArchive, FsOp.writeTemp, FsOp.writeTemp, FsOp.writeTemp,
   FsOp.beginWriteArchive, FsOp.endWriteArchive]

/-- Success-path trace of `try_github_specific_format`
(fix_github_extensions.py): read + extract to temp (239-244), patch in
temp (75), then `zipfile.ZipFile(vsix_path, "w")` (252) - again written
directly at the original path. -/
def try_github_trace : List FsOp :=
  [FsOp.readArchive, FsOp.writeTemp, FsOp.writeTemp,
   FsOp.beginWriteArchive, FsOp.endWriteArchive]

/-! ## Specification-side view of a tree: its regular files

`treeFiles` names, independently of the walk order, the set of regular
files under a root with their paths relative to that root - the
specification's notion of the archive's content.  Directories (in
particular empty ones) contribute no element of their own. -/

mutual
/-- The regular files contributed by one entry, with relative paths. -/
def treeFilesE (e : Entry) : List (List String × ManifestFile) :=
  match e with
  | Entry.file n c => [([n], c)]
  | Entry.dir n cs => (treeFilesL cs).map (fun pc => (n :: pc.1, pc.2))

/-- The regular files under a root, with paths relative to the root. -/
def treeFilesL (es : List Entry) : List (List String × ManifestFile) :=
  match es with
  | [] => []
  | e :: es => treeFilesE e ++ treeFilesL es
end

/-- A name a real filesystem can give to a file or directory: nonempty,
not the reserved `.` or `..`, and free of the path separator. -/
def validComponent (s : String) : Bool :=
  !(s == "") && !(s == ".") && !(s == "..") && !(s.data.contains '/')

mutual
/-- All names in one entry's subtree are valid filesystem names. -/
def validEntry (e : Entry) : Bool :=
  match e with
  | Entry.file n _ => validComponent n
  | Entry.dir n cs => validComponent n && validEntriesL cs

/-- All names in a tree are valid filesystem names (any tree produced by
extracting an archive into a directory satisfies this: the operating
system cannot create a file or directory named `""`, `.` or `..`, nor one
containing `/`). -/
def validEntriesL (es : List Entry) : Bool :=
  match es with
  | [] => true
  | e :: es => validEntry e && validEntriesL es
end

/-- The file contributed by one entry to its own level of the walk. -/
def entryLevelFile (pre : List String) : Entry → List (List String × ManifestFile)
  | Entry.file n c => [(pre ++ [n], c)]
  | Entry.dir _ _ => []

theorem levelFiles_cons (pre : List String) (e : Entry) (es : List Entry) :
    levelFiles pre (e :: es) = entryLevelFile pre e ++ levelFiles pre es := by
  cases e <;> rfl

mutual
/-- Walk/`treeFiles` agreement, single-entry part: one entry's level file
together with its sub-walk is a permutation of its `treeFilesE`, shifted
under the walk root. -/
theorem walkDir_perm (pre : List String) (e : Entry) :
    (entryLevelFile pre e ++ walkDir pre e).Perm
      ((treeFilesE e).map (fun pc => (pre ++ pc.1, pc.2))) :=
  match e with
  | Entry.file n c => by simp [entryLevelFile, walkDir, treeFilesE]
  | Entry.dir n cs => by
    have ih := walkFiles_perm (pre ++ [n]) cs
    simp only [entryLevelFile, walkDir, treeFilesE, List.nil_append]
    refine ih.trans (List.Perm.of_eq ?_)
    simp [List.map_map, Function.comp]

/-- Walk/`treeFiles` agreement: the files yielded by `os.walk` are a
permutation of the tree's regular files, shifted under the walk root. -/
theorem walkFiles_perm (pre : List String) (es : List Entry) :
    (walkFiles pre es).Perm
      ((treeFilesL es).map (fun pc => (pre ++ pc.1, pc.2))) :=
  match es with
  | [] => by simp [walkFiles, levelFiles, walkDirs, treeFilesL]
  | e :: es => by
    have ihE := walkDir_perm pre e
    have ihL := walkFiles_perm pre es
    have hrw : walkFiles pre (e :: es) =
        entryLevelFile pre e ++ (levelFiles pre es ++ (walkDir pre e ++ walkDirs pre es)) := by
      simp [walkFiles, levelFiles_cons, walkDirs, List.append_assoc]
    have hshuf : (walkFiles pre (e :: es)).Perm
        ((entryLevelFile pre e ++ walkDir pre e) ++ walkFiles pre es) := by
      rw [hrw]
      have h2 : (entryLevelFile pre e ++ walkDir pre e) ++ walkFiles pre es =
          entryLevelFile pre e ++ (walkDir pre e ++ (levelFiles pre es ++ walkDirs pre es)) := by
        simp [walkFiles, List.append_assoc]
      rw [h2]
      exact List.Perm.append_left _ (List.perm_append_comm_assoc _ _ _)
    have hmap : (treeFilesL (e :: es)).map (fun pc => (pre ++ pc.1, pc.2)) =
        (treeFilesE e).map (fun pc => (pre ++ pc.1, pc.2))
          ++ (treeFilesL es).map (fun pc => (pre ++ pc.1, pc.2)) := by
      simp [treeFilesL, List.map_append]
    rw [hmap]
    exact hshuf.trans (List.Perm.append ihE ihL)
end

mutual
/-- Valid names, single-entry part: every relative path in `treeFilesE`
of a valid entry is nonempty and made of valid components. -/
theorem treeFilesE_valid (e : Entry) (h : validEntry e = true) :
    ∀ pc ∈ treeFilesE e, pc.1 ≠ [] ∧ ∀ c ∈ pc.1, validComponent c = true :=
  match e with
  | Entry.file n c => by
    simp only [validEntry] at h
    simp [treeFilesE, h]
  | Entry.dir n cs => by
    simp only [validEntry, Bool.and_eq_true] at h
    intro pc hpc
    simp only [treeFilesE, List.mem_map] at hpc
    obtain ⟨qc, hqc, rfl⟩ := hpc
    have := treeFilesL_valid cs h.2 qc hqc
    refine ⟨by simp, ?_⟩
    intro c hc
    simp only [List.mem_cons] at hc
    rcases hc with rfl | hc
    · exact h.1
    · exact this.2 c hc

/-- Valid names: every relative path in `treeFilesL` of a valid tree is
nonempty and made of valid components. -/
theorem treeFilesL_valid (es : List Entry) (h : validEntriesL es = true) :
    ∀ pc ∈ treeFilesL es, pc.1 ≠ [] ∧ ∀ c ∈ pc.1, validComponent c = true :=
  match es with
  | [] => by simp [treeFilesL]
  | e :: es => by
    simp only [validEntriesL, Bool.and_eq_true] at h
    intro pc hpc
    simp only [treeFilesL, List.mem_append] at hpc
    rcases hpc with hpc | hpc
    · exact treeFilesE_valid e h.1 pc hpc
    · exact treeFilesL_valid es h.2 pc hpc
end

/-! ## Further helper lemmas -/

theorem map_nil_pre (l : List (List String × ManifestFile)) :
    l.map (fun pc => (([] : List String) ++ pc.1, pc.2)) = l := by
  induction l with
  | nil => rfl
  | cons a l ih => simp [ih]

theorem patchDoc_fixed (d d2 : List (String × Json)) (v : String)
    (h : patchDoc d v = some d2) : patchDoc d2 v = some d2 := by
  unfold patchDoc at h ⊢
  cases he : lookupKey d "engines" with
  | none =>
    rw [he] at h
    simp only [Option.some.injEq] at h
    subst h
    rw [lookupKey_setKey_self]
    simp only [setKey_setKey_same]
  | some j =>
    rw [he] at h
    cases j with
    | obj o =>
      simp only [Option.some.injEq] at h
      subst h
      rw [lookupKey_setKey_self]
      simp only [setKey_setKey_same]
    | str s => exact absurd h (by simp)
    | num n => exact absurd h (by simp)
    | bool b => exact absurd h (by simp)
    | null => exact absurd h (by simp)
    | arr a => exact absurd h (by simp)

theorem update_package_json_ok_newVal (m : ManifestFile) (t : String)
    (h : (update_package_json m t).ok = true) :
    (update_package_json m t).newVal = some t := by
  cases m with
  | bad s => simp [update_package_json] at h
  | ok j =>
    cases j with
    | obj d =>
      cases hp : patchDoc d t with
      | none => simp [update_package_json, hp] at h
      | some d2 => simp [update_package_json, hp]
    | str s => simp [update_package_json] at h
    | num n => simp [update_package_json] at h
    | bool b => simp [update_package_json] at h
    | null => simp [update_package_json] at h
    | arr a => simp [update_package_json] at h

theorem runStrategies_failedLines_eq (name : String)
    (ms : List (String × (Bytes → StratOutcome))) (b : Bytes) :
    (runStrategies name ms b).failedLines =
      (if (runStrategies name ms b).ok then [] else [name ++ ": All methods failed"]) := by
  induction ms generalizing b with
  | nil => simp [runStrategies]
  | cons m rest ih =>
    obtain ⟨mn, f⟩ := m
    by_cases h : (f b).ok
    · simp [runStrategies, h]
    · simp [runStrategies, h, ih]

theorem runStrategies_not_ok_attempted (name : String)
    (ms : List (String × (Bytes → StratOutcome))) (b : Bytes)
    (h : (runStrategies name ms b).ok = false) :
    (runStrategies name ms b).attempted = ms.map Prod.fst := by
  induction ms generalizing b with
  | nil => simp [runStrategies]
  | cons m rest ih =>
    obtain ⟨mn, f⟩ := m
    by_cases hf : (f b).ok
    · simp [runStrategies, hf] at h
    · simp only [runStrategies, hf, Bool.false_eq_true, if_false] at h ⊢
      simp [ih _ h]

theorem runStrategies_ok_successLines (name : String)
    (ms : List (String × (Bytes → StratOutcome))) (b : Bytes)
    (h : (runStrategies name ms b).ok = true) :
    ∃ mn orig newv, mn ∈ ms.map Prod.fst ∧
      (runStrategies name ms b).successLines = [orchSuccessLine name orig newv mn] := by
  induction ms generalizing b with
  | nil => simp [runStrategies] at h
  | cons m rest ih =>
    obtain ⟨mn, f⟩ := m
    by_cases hf : (f b).ok
    · exact ⟨mn, (f b).original, (f b).newVal, by simp, by simp [runStrategies, hf]⟩
    · simp only [runStrategies, hf, Bool.false_eq_true, if_false] at h ⊢
      obtain ⟨mn', o', n', hmem, hline⟩ := ih _ h
      exact ⟨mn', o', n', by simp [hmem], by simp [hline]⟩

/-! ## Concrete fixtures used by witnesses and counterexamples -/

/-- The manifest of the specification's section-8 scenario: a
`package.json` whose `engines` object carries `^1.0.0`. -/
def scenarioManifest : ManifestFile :=
  ManifestFile.ok (Json.obj [("engines", Json.obj [("vscode", Json.str "^1.0.0")])])

/-- The section-8 scenario archive: a plain ZIP containing only that
`package.json`. -/
def scenarioArchive : Bytes := Bytes.zipData [Entry.file "package.json" scenarioManifest]

/-- An archive that extracts fine but contains no `package.json`. -/
def noManifestArchive : Bytes :=
  Bytes.zipData [Entry.file "readme.md" (ManifestFile.bad "hello")]

/-- A manifest with several fields, for the frame/idempotence witnesses. -/
def demoDoc : List (String × Json) :=
  [("name", Json.str "ext"),
   ("engines", Json.obj [("vscode", Json.str "^1.0.0")]),
   ("version", Json.str "1.0.0")]

/-- `demoDoc` after patching `engines.vscode` to `^1.99.0`. -/
def demoDocPatched : List (String × Json) :=
  [("name", Json.str "ext"),
   ("engines", Json.obj [("vscode", Json.str "^1.99.0")]),
   ("version", Json.str "1.0.0")]

/-- A manifest file wrapping `demoDoc`. -/
def demoManifest : ManifestFile := ManifestFile.ok (Json.obj demoDoc)

/-- A small extraction tree with the manifest one level down. -/
def demoTree : List Entry :=
  [Entry.dir "extension" [Entry.file "package.json" scenarioManifest]]

/-! ## Claims -/

/-- C3 (amended): classification returns `GzipWrappedZip` exactly for a
complete valid gzip stream whose decompressed payload is a valid ZIP
(such files do begin with the gzip magic `0x1F 0x8B`, but the magic alone
is not sufficient); a valid plain ZIP, which has no gzip magic, returns
`PlainZip`; garbage, a truncated gzip stream, and a gzip stream wrapping
a non-ZIP payload all return `Unknown`.  The gzip attempt runs before the
direct ZIP attempt (see `extractArchive`), and `classify` is a total
function. -/
theorem classifier_behavior (t : List Entry) (x : Bytes) :
    classify (Bytes.gzipData (Bytes.zipData t)) = ContainerKind.GzipWrappedZip
    ∧ hasGzipMagic (Bytes.gzipData x) = true
    ∧ (classify (Bytes.zipData t) = ContainerKind.PlainZip
        ∧ hasGzipMagic (Bytes.zipData t) = false)
    ∧ classify Bytes.junk = ContainerKind.Unknown
    ∧ (hasGzipMagic Bytes.gzipMagicCorrupt = true
        ∧ classify Bytes.gzipMagicCorrupt = ContainerKind.Unknown) :=
  ⟨rfl, rfl, ⟨rfl, rfl⟩, rfl, rfl, rfl⟩

theorem classifier_behavior_witness :
    classify (Bytes.gzipData (Bytes.zipData [])) = ContainerKind.GzipWrappedZip :=
  (classifier_behavior [] Bytes.junk).1

/-- C3 counterexample: a file whose first two bytes equal the gzip magic
number `0x1F 0x8B` - here a complete valid gzip stream whose decompressed
payload is not a ZIP - classifies as `Unknown`, not `GzipWrappedZip`, so
the gzip magic alone does not determine the classification. -/
theorem gzip_magic_not_sufficient :
    hasGzipMagic (Bytes.gzipData Bytes.junk) = true
    ∧ classify (Bytes.gzipData Bytes.junk) = ContainerKind.Unknown
    ∧ classify (Bytes.gzipData Bytes.junk) ≠ ContainerKind.GzipWrappedZip := by
  decide

/-- C4: the manifest patcher is idempotent: patching a manifest file to a
target value and then patching the result again to the same value leaves
the file content (hence its parsed document) exactly as after the first
patch - once the value is applied the document is a fixed point of the
patcher. -/
theorem update_package_json_idempotent (m : ManifestFile) (v : String) :
    (update_package_json (update_package_json m v).file v).file
      = (update_package_json m v).file := by
  cases m with
  | bad s => rfl
  | ok j =>
    cases j with
    | obj d =>
      cases hp : patchDoc d v with
      | none => simp [update_package_json, hp]
      | some d2 =>
        have h2 := patchDoc_fixed d d2 v hp
        simp [update_package_json, hp, h2]
    | str s => rfl
    | num n => rfl
    | bool b => rfl
    | null => rfl
    | arr a => rfl

theorem update_package_json_idempotent_witness :
    (update_package_json (update_package_json demoManifest "^1.99.0").file "^1.99.0").file
      = (update_package_json demoManifest "^1.99.0").file :=
  update_package_json_idempotent demoManifest "^1.99.0"

/-- C5: a successful patch only ever adds or overwrites the single
`engines.vscode` field (creating the `engines` object when absent): every
other top-level field keeps its value, the top-level key ordering is
preserved (with `engines` appended at the end only when it was absent),
and inside `engines` every other key keeps its value and the key ordering
is preserved (with `vscode` appended only when it was absent). -/
theorem update_package_json_frame (d d2 : List (String × Json)) (v : String)
    (h : patchDoc d v = some d2) :
    (∀ k, k ≠ "engines" → lookupKey d2 k = lookupKey d k)
    ∧ keysOf d2 = (if (lookupKey d "engines").isSome then keysOf d else keysOf d ++ ["engines"])
    ∧ ∃ o2, lookupKey d2 "engines" = some (Json.obj o2)
        ∧ lookupKey o2 "vscode" = some (Json.str v)
        ∧ (lookupKey d "engines" = none → o2 = [("vscode", Json.str v)])
        ∧ (∀ o, lookupKey d "engines" = some (Json.obj o) →
            (∀ k, k ≠ "vscode" → lookupKey o2 k = lookupKey o k)
            ∧ keysOf o2 =
                (if (lookupKey o "vscode").isSome then keysOf o else keysOf o ++ ["vscode"])) := by
  unfold patchDoc at h
  cases he : lookupKey d "engines" with
  | none =>
    rw [he] at h
    simp only [Option.some.injEq] at h
    subst h
    refine ⟨fun k hk => lookupKey_setKey_ne d "engines" k _ hk, by rw [keysOf_setKey, he], ?_⟩
    refine ⟨setKey [] "vscode" (Json.str v), lookupKey_setKey_self d "engines" _,
      lookupKey_setKey_self [] "vscode" _, fun _ => rfl, ?_⟩
    intro o ho
    cases ho
  | some j =>
    rw [he] at h
    cases j with
    | obj o =>
      simp only [Option.some.injEq] at h
      subst h
      refine ⟨fun k hk => lookupKey_setKey_ne d "engines" k _ hk, by rw [keysOf_setKey, he], ?_⟩
      refine ⟨setKey o "vscode" (Json.str v), lookupKey_setKey_self d "engines" _,
        lookupKey_setKey_self o "vscode" _, ?_, ?_⟩
      · intro h0
        cases h0
      · intro o' ho'
        simp only [Option.some.injEq, Json.obj.injEq] at ho'
        subst ho'
        exact ⟨fun k hk => lookupKey_setKey_ne o "vscode" k _ hk, keysOf_setKey o "vscode" _⟩
    | str s => exact absurd h (by simp)
    | num n => exact absurd h (by simp)
    | bool b => exact absurd h (by simp)
    | null => exact absurd h (by simp)
    | arr a => exact absurd h (by simp)

theorem update_package_json_frame_witness :
    lookupKey demoDocPatched "name" = lookupKey demoDoc "name"
    ∧ keysOf demoDocPatched
        = (if (lookupKey demoDoc "engines").isSome then keysOf demoDoc
           else keysOf demoDoc ++ ["engines"]) :=
  ⟨(update_package_json_frame demoDoc demoDocPatched "^1.99.0" rfl).1 "name" (by decide),
   (update_package_json_frame demoDoc demoDocPatched "^1.99.0" rfl).2.1⟩

/-- C6: when the manifest content cannot be parsed, the patcher reports
failure (`(False, None, None)`) and performs no write at all: the file
content after the call is byte-for-byte the content before it. -/
theorem update_package_json_malformed (s target : String) :
    update_package_json (ManifestFile.bad s) target
      = ⟨ManifestFile.bad s, false, none, none⟩ := rfl

theorem update_package_json_malformed_witness :
    update_package_json (ManifestFile.bad "not json at all") "^1.99.0"
      = ⟨ManifestFile.bad "not json at all", false, none, none⟩ :=
  update_package_json_malformed "not json at all" "^1.99.0"

/-- C10: the repackager writes exactly one archive entry per regular file
under the extraction root, named by its path relative to that root (the
entry list is a permutation of the tree's regular-file list, which by
construction holds one element per regular file and none per directory),
and an empty directory contributes no entry: repackaging a tree with an
empty directory added yields exactly the entries of the tree without
it. -/
theorem repackage_exactly_tree_files (t : List Entry) :
    (repackage t).Perm (treeFilesL t)
    ∧ ∀ n : String, repackage (Entry.dir n [] :: t) = repackage t := by
  constructor
  · have hperm := walkFiles_perm [] t
    rw [map_nil_pre] at hperm
    exact hperm
  · intro n
    simp [repackage, walkFiles, levelFiles, walkDirs, walkDir]

theorem repackage_exactly_tree_files_witness :
    (repackage demoTree).Perm (treeFilesL demoTree) :=
  (repackage_exactly_tree_files demoTree).1

/-- C9: every entry name the repackager writes is a path relative to the
extraction root: for any tree whose names are names a real filesystem can
hold (nonempty, not `.` or `..`, no separator - which extraction into a
directory guarantees), every written entry path is nonempty, consists
only of such components, and in particular contains no parent-traversal
segment `..` and no empty segment (so the joined name is never
absolute). -/
theorem repackage_entry_names_safe (t : List Entry) (h : validEntriesL t = true) :
    ∀ pc ∈ repackage t, pc.1 ≠ []
      ∧ (∀ c ∈ pc.1, validComponent c = true)
      ∧ ".." ∉ pc.1 ∧ "" ∉ pc.1 := by
  intro pc hpc
  have hmem : pc ∈ treeFilesL t := by
    have hperm := walkFiles_perm [] t
    rw [map_nil_pre] at hperm
    exact hperm.mem_iff.mp hpc
  have hv := treeFilesL_valid t h pc hmem
  refine ⟨hv.1, hv.2, ?_, ?_⟩
  · intro hdd
    have := hv.2 ".." hdd
    simp [validComponent] at this
  · intro hemp
    have := hv.2 "" hemp
    simp [validComponent] at this

theorem repackage_entry_names_safe_witness :
    (["extension", "package.json"] : List String) ≠ []
      ∧ (∀ c ∈ (["extension", "package.json"] : List String), validComponent c = true)
      ∧ ".." ∉ (["extension", "package.json"] : List String)
      ∧ "" ∉ (["extension", "package.json"] : List String) :=
  repackage_entry_names_safe demoTree (by decide)
    (["extension", "package.json"], scenarioManifest) (List.mem_singleton.mpr rfl)

/-- C2: the fallback orchestrator runs its ordered strategy list from
index 0 and stops at the first success: when strategies 1 and 2 fail and
strategy 3 succeeds, exactly one success-ledger line is written (naming
strategy 3), no failure line is written, and strategy 4 is never
attempted; moreover, for any strategy list, a failure-ledger line is
written exactly when the whole run failed, and a failed run has attempted
every strategy in the list. -/
theorem fallback_first_success_wins
    (name n1 n2 n3 n4 : String) (f1 f2 f3 f4 : Bytes → StratOutcome) (b : Bytes)
    (h1 : (f1 b).ok = false)
    (h2 : (f2 (f1 b).archive).ok = false)
    (h3 : (f3 ((f2 (f1 b).archive).archive)).ok = true) :
    ((runStrategies name [(n1, f1), (n2, f2), (n3, f3), (n4, f4)] b).successLines
        = [orchSuccessLine name (f3 ((f2 (f1 b).archive).archive)).original
            (f3 ((f2 (f1 b).archive).archive)).newVal n3]
      ∧ (runStrategies name [(n1, f1), (n2, f2), (n3, f3), (n4, f4)] b).attempted
        = [n1, n2, n3]
      ∧ (runStrategies name [(n1, f1), (n2, f2), (n3, f3), (n4, f4)] b).failedLines = []
      ∧ (runStrategies name [(n1, f1), (n2, f2), (n3, f3), (n4, f4)] b).ok = true)
    ∧ (∀ (ms : List (String × (Bytes → StratOutcome))) (b' : Bytes),
        ((runStrategies name ms b').failedLines ≠ [] ↔ (runStrategies name ms b').ok = false)
        ∧ ((runStrategies name ms b').ok = false →
            (runStrategies name ms b').attempted = ms.map Prod.fst)) := by
  constructor
  · refine ⟨?_, ?_, ?_, ?_⟩ <;> simp [runStrategies, h1, h2, h3]
  · intro ms b'
    refine ⟨?_, runStrategies_not_ok_attempted name ms b'⟩
    rw [runStrategies_failedLines_eq]
    by_cases h : (runStrategies name ms b').ok <;> simp [h]

/-- A strategy that always fails, leaving the archive untouched. -/
def stratAlwaysFail : Bytes → StratOutcome := fun b => ⟨b, false, none, none⟩

/-- A strategy that always succeeds without changing the archive. -/
def stratAlwaysOk : Bytes → StratOutcome :=
  fun b => ⟨b, true, some (Json.str "^1.0.0"), some "^1.99.0"⟩

theorem fallback_first_success_wins_witness :
    (runStrategies "a.vsix"
        [("Standard ZIP", stratAlwaysFail), ("Manual unzip", stratAlwaysFail),
         ("VSCE tool", stratAlwaysOk), ("GitHub specific", stratAlwaysFail)]
        Bytes.junk).attempted = ["Standard ZIP", "Manual unzip", "VSCE tool"] :=
  (fallback_first_success_wins "a.vsix" "Standard ZIP" "Manual unzip" "VSCE tool"
    "GitHub specific" stratAlwaysFail stratAlwaysFail stratAlwaysOk stratAlwaysFail
    Bytes.junk rfl rfl rfl).1.2.1

/-- C7 (amended): an archive that extracts but holds no `package.json`
is recorded as a failure and the batch continues - but the two pipelines
write different ledger lines.  The engine pipeline appends exactly
`<name>: No package.json found`, leaves the archive bytes unchanged,
returns `False`, and the batch loop still processes every archive; the
fallback orchestrator treats the missing manifest as a strategy failure,
attempts all four strategies, leaves the archive unchanged, and appends
`<name>: All methods failed` instead. -/
theorem no_manifest_handling (name : String) (b : Bytes) (t : List Entry) (gz : Bool)
    (hE : extractArchive b = some (t, gz)) (hF : find_package_json t = none) :
    process_vsix_file name b = ⟨b, [], [name ++ ": No package.json found"], false⟩
    ∧ (∀ files : List (String × Bytes),
        (mainLoop ((name, b) :: files)).length = files.length + 1)
    ∧ (∀ (vsce : Bool) (b' : Bytes) (t' : List Entry), asZip b' = some t' →
        find_package_json t' = none →
        process_extension vsce name b' =
          ⟨b', [], [name ++ ": All methods failed"],
            ["Standard ZIP", "Manual unzip", "VSCE tool", "GitHub specific"], false⟩) := by
  refine ⟨?_, ?_, ?_⟩
  · simp [process_vsix_file, hE, hF]
  · intro files
    simp [mainLoop]
  · intro vsce b' t' h1 h2
    have hd : try_direct_zip_method b' = ⟨b', false, none, none⟩ := by
      simp [try_direct_zip_method, h1, h2]
    have hu : try_unzip_manually b' = ⟨b', false, none, none⟩ := by
      simp [try_unzip_manually, h1, h2]
    have hv : try_vsce_method vsce b' = ⟨b', false, none, none⟩ := by
      cases vsce <;> simp [try_vsce_method, hu]
    have hg : try_github_specific_format b' = ⟨b', false, none, none⟩ := by
      by_cases hr : hasRootVsixManifest t' <;>
        simp [try_github_specific_format, h1, h2, hr]
    simp [process_extension, orchMethods, runStrategies, hd, hu, hv, hg]

theorem no_manifest_handling_witness :
    process_vsix_file "e.vsix" noManifestArchive
      = ⟨noManifestArchive, [], ["e.vsix: No package.json found"], false⟩ :=
  (no_manifest_handling "e.vsix" noManifestArchive
    [Entry.file "readme.md" (ManifestFile.bad "hello")] false rfl rfl).1

/-- C7 counterexample: for an archive that extracts fine but holds no
`package.json`, the fallback orchestrator's run appends the failure line
`<name>: All methods failed`, not the claimed `<name>: No package.json
found`. -/
theorem no_manifest_orchestrator_line_differs :
    (process_extension false "e.vsix" noManifestArchive).failedLines
      = ["e.vsix: All methods failed"]
    ∧ (process_extension false "e.vsix" noManifestArchive).failedLines
      ≠ ["e.vsix: No package.json found"] := by
  decide

/-- C8 (amended): only the fallback orchestrator's success ledger uses the
format `<name>: <old> -> <new> (using <strategy>)`: on the section-8
scenario archive the orchestrator writes exactly
`pub.ext@1.0.0.vsix: ^1.0.0 -> ^1.99.0 (using Standard ZIP)`, and every
successful orchestrator run writes exactly one line of that format naming
a strategy from its list; the engine pipeline's success ledger line
(update_vsix_engine.py line 196) instead has the form
`<name>: <old> -> ^1.99.0` with no strategy suffix. -/
theorem success_ledger_line_format :
    ((process_extension false "pub.ext@1.0.0.vsix" scenarioArchive).successLines
        = ["pub.ext@1.0.0.vsix: ^1.0.0 -> ^1.99.0 (using Standard ZIP)"]
      ∧ (process_extension false "pub.ext@1.0.0.vsix" scenarioArchive).ok = true)
    ∧ (∀ (name : String) (ms : List (String × (Bytes → StratOutcome))) (b : Bytes),
        (runStrategies name ms b).ok = true →
        ∃ mn orig newv, mn ∈ ms.map Prod.fst ∧
          (runStrategies name ms b).successLines
            = [name ++ ": " ++ pyOptJson orig ++ " -> " ++ pyOptStr newv
                ++ " (using " ++ mn ++ ")"])
    ∧ (∀ (name : String) (b : Bytes), (process_vsix_file name b).ok = true →
        ∃ orig, (process_vsix_file name b).successLines
          = [name ++ ": " ++ pyOptJson orig ++ " -> " ++ "^1.99.0"]) := by
  refine ⟨⟨by decide, by decide⟩, ?_, ?_⟩
  · intro name ms b h
    obtain ⟨mn, orig, newv, hmem, hline⟩ := runStrategies_ok_successLines name ms b h
    exact ⟨mn, orig, newv, hmem, hline⟩
  · intro name b hok
    cases hE : extractArchive b with
    | none =>
      have hz : (process_vsix_file name b).ok = false := by
        simp [process_vsix_file, hE]
      simp [hz] at hok
    | some tg =>
      obtain ⟨t, gz⟩ := tg
      cases hF : find_package_json t with
      | none =>
        have hz : (process_vsix_file name b).ok = false := by
          simp [process_vsix_file, hE, hF]
        simp [hz] at hok
      | some pc =>
        obtain ⟨p, c⟩ := pc
        by_cases hr : (update_package_json c "^1.99.0").ok
        · refine ⟨(update_package_json c "^1.99.0").original, ?_⟩
          have hn := update_package_json_ok_newVal c "^1.99.0" hr
          have hline : (process_vsix_file name b).successLines
              = [name ++ ": " ++ pyOptJson (update_package_json c "^1.99.0").original
                  ++ " -> " ++ pyOptStr (update_package_json c "^1.99.0").newVal] := by
            simp [process_vsix_file, hE, hF, hr]
          rw [hline, hn]
          rfl
        · have hz : (process_vsix_file name b).ok = false := by
            simp [process_vsix_file, hE, hF, hr]
          simp [hz] at hok

theorem success_ledger_line_format_witness :
    ∃ orig, (process_vsix_file "pub.ext@1.0.0.vsix" scenarioArchive).successLines
      = ["pub.ext@1.0.0.vsix" ++ ": " ++ pyOptJson orig ++ " -> " ++ "^1.99.0"] :=
  success_ledger_line_format.2.2 "pub.ext@1.0.0.vsix" scenarioArchive (by decide)

/-- C8 counterexample: the engine pipeline processes the section-8
scenario archive successfully, yet its success-ledger line is
`pub.ext@1.0.0.vsix: ^1.0.0 -> ^1.99.0` - it is not the claimed
`pub.ext@1.0.0.vsix: ^1.0.0 -> ^1.99.0 (using Standard ZIP)` and carries
no `(using <strategy>)` suffix at all. -/
theorem engine_success_line_lacks_strategy :
    (process_vsix_file "pub.ext@1.0.0.vsix" scenarioArchive).ok = true
    ∧ (process_vsix_file "pub.ext@1.0.0.vsix" scenarioArchive).successLines
        = ["pub.ext@1.0.0.vsix: ^1.0.0 -> ^1.99.0"]
    ∧ (process_vsix_file "pub.ext@1.0.0.vsix" scenarioArchive).successLines
        ≠ ["pub.ext@1.0.0.vsix: ^1.0.0 -> ^1.99.0 (using Standard ZIP)"] := by
  decide

/-- C1 (amended): the engine pipeline and the two external-tool
strategies build the complete replacement archive in temporary files and
touch the original archive path only in their final copy step, so a crash
at any point before that copy begins leaves the original bytes untouched,
and a completed run leaves the complete replacement; but that final step
is a plain byte copy (`shutil.copy2`), not an atomic rename, so a crash
during it leaves a truncated archive at the final path - and the
direct-ZIP and GitHub-specific strategies write the replacement directly
at the original path (`zipfile.ZipFile(vsix_path, "w")`), so a crash
during their repackaging write leaves a truncated archive even though
that write is not the last step of the strategy. -/
theorem archive_replacement_discipline :
    (∀ n, n < 6 → crashAt process_vsix_trace n = ArchivePathState.original)
    ∧ (∀ n, n < 5 → crashAt try_unzip_trace n = ArchivePathState.original)
    ∧ (∀ n, n < 5 → crashAt try_vsce_trace n = ArchivePathState.original)
    ∧ (∀ n, n < 4 → crashAt try_direct_zip_trace n = ArchivePathState.original)
    ∧ (∀ n, n < 4 → crashAt try_github_trace n = ArchivePathState.original)
    ∧ crashAt try_direct_zip_trace 4 = ArchivePathState.truncated
    ∧ crashAt try_github_trace 4 = ArchivePathState.truncated
    ∧ crashAt process_vsix_trace 6 = ArchivePathState.truncated
    ∧ crashAt try_unzip_trace 5 = ArchivePathState.truncated
    ∧ crashAt try_vsce_trace 5 = ArchivePathState.truncated
    ∧ archAfter process_vsix_trace = ArchivePathState.replaced
    ∧ archAfter try_direct_zip_trace = ArchivePathState.replaced
    ∧ archAfter try_unzip_trace = ArchivePathState.replaced
    ∧ archAfter try_vsce_trace = ArchivePathState.replaced
    ∧ archAfter try_github_trace = ArchivePathState.replaced := by
  decide

theorem archive_replacement_discipline_witness :
    crashAt process_vsix_trace 3 = ArchivePathState.original :=
  archive_replacement_discipline.1 3 (by decide)

/-- C1 counterexample: in the Standard ZIP strategy the replacement is
written directly at the original archive path
(`zipfile.ZipFile(vsix_path, "w")`, fix_github_extensions.py line 115):
a crash after that write has begun - strictly before the strategy
completes - leaves a truncated archive at the original path, not the
original bytes. -/
theorem direct_zip_strategy_truncates_in_place :
    4 < try_direct_zip_trace.length
    ∧ crashAt try_direct_zip_trace 4 = ArchivePathState.truncated
    ∧ crashAt try_direct_zip_trace 4 ≠ ArchivePathState.original := by
  decide

end DevSecOps
